import Mathlib

/-!
Verification of the core business logic of an electronics-store marketplace
(order lifecycle state machine, stock handling, discount codes, spin wheel).

The Python source (`models.py`, `routes.py`) keeps all entities in in-memory
dicts.  We embed each dict as an association list `List (Key × Value)` whose
lookup takes the first matching key.  A Python dict assignment
`d[k] = v` is modelled by prepending `(k, v)` (identical lookup semantics),
and an in-place mutation of a stored object by `updateKey`, which rewrites
the value at the key.  Timestamps are integers (seconds), monetary amounts
are rationals; fields irrelevant to the verified properties (ids inside
objects, created/updated timestamps, product names, image filenames,
password hashes) are omitted.
-/

namespace EStore

/-- First-match association-list lookup, the model of Python `dict.get`. -/
def lookup? {α β : Type} [DecidableEq α] : List (α × β) → α → Option β
  | [], _ => none
  | (k, v) :: rest, k0 => if k = k0 then some v else lookup? rest k0

/-- Rewrite the value stored at a key, the model of mutating the object held
in a Python dict (`products.get(pid).stock -= q` and similar). -/
def updateKey {α β : Type} [DecidableEq α] : List (α × β) → α → (β → β) → List (α × β)
  | [], _, _ => []
  | (a, b) :: rest, k, f =>
    if a = k then (a, f b) :: updateKey rest k f else (a, b) :: updateKey rest k f

/-- Remove a key, the model of Python `del d[k]`. -/
def eraseKey {α β : Type} [DecidableEq α] (l : List (α × β)) (k : α) : List (α × β) :=
  l.filter (fun kv => kv.1 ≠ k)

theorem lookup_updateKey_self {α β : Type} [DecidableEq α]
    (l : List (α × β)) (k : α) (f : β → β) :
    lookup? (updateKey l k f) k = (lookup? l k).map f := by
  induction l with
  | nil => rfl
  | cons kv rest ih =>
    obtain ⟨a, b⟩ := kv
    by_cases h : a = k
    · simp [updateKey, lookup?, h]
    · simp [updateKey, lookup?, h, ih]

theorem lookup_updateKey_other {α β : Type} [DecidableEq α]
    (l : List (α × β)) (k k0 : α) (f : β → β) (h : k ≠ k0) :
    lookup? (updateKey l k f) k0 = lookup? l k0 := by
  induction l with
  | nil => rfl
  | cons kv rest ih =>
    obtain ⟨a, b⟩ := kv
    by_cases hk : a = k
    · have hk0 : a ≠ k0 := by rw [hk]; exact h
      simp [updateKey, lookup?, hk, hk0, h, ih]
    · by_cases hk0 : a = k0
      · have hk2 : k0 ≠ k := fun hc => hk (hk0.trans hc)
        simp [updateKey, lookup?, hk, hk0, hk2]
      · simp [updateKey, lookup?, hk, hk0, ih]

/-! ## Data model (`models.py`) -/

/-- `models.User` (only the fields the verified operations read). -/
structure User where
  role : String
deriving DecidableEq, Repr

/-- `models.Product`.  `stock` is a Python `int`, hence `ℤ`: nothing in the
source prevents it from going negative.  `promotional_price` is `None` or a
number (Python truthiness makes `0` falsy, which the checkout test relies
on). -/
structure Product where
  price : ℚ
  vendor_id : String
  is_active : Bool
  stock : ℤ
  is_promotional : Bool
  promotional_price : Option ℚ
  promotional_end_date : Option ℤ
deriving DecidableEq, Repr

/-- `models.CartItem`, keyed in the store by `(user_id, product_id)`. -/
structure CartItem where
  user_id : String
  product_id : String
  quantity : ℕ
deriving DecidableEq, Repr

/-- One entry of `Order.items` (the source keeps dicts with
`product_id`, `product_name`, `quantity`, `price`, `total`; the name and the
redundant per-line total are omitted). -/
structure OrderItem where
  product_id : String
  quantity : ℕ
  price : ℚ
deriving DecidableEq, Repr

/-- `models.Order`. -/
structure Order where
  id : String
  customer_id : String
  items : List OrderItem
  subtotal : ℚ
  discount_code : Option String
  discount_percentage : ℚ
  discount_amount : ℚ
  total_amount : ℚ
  status : String
deriving DecidableEq, Repr

/-- `models.OrderComment` (content irrelevant to the claims). -/
structure OrderComment where
  order_id : String
  user_id : String
  message : String
  user_role : String
deriving DecidableEq, Repr

/-- `models.DiscountCode`. -/
structure DiscountCode where
  code : String
  discount_percentage : ℚ
  user_id : String
  is_used : Bool
  expires_at : Option ℤ
deriving DecidableEq, Repr

/-- `models.SpinAttempt`.  `result_discount` arrives from client JSON, so it
is an arbitrary number. -/
structure SpinAttempt where
  user_id : String
  spin_number : ℕ
  result_discount : ℚ
  timestamp : ℤ
deriving DecidableEq, Repr

/-- The module-level stores of `models.py`. -/
structure State where
  users : List (String × User)
  products : List (String × Product)
  orders : List (String × Order)
  cart_items : List ((String × String) × CartItem)
  order_comments : List (String × List OrderComment)
  discount_codes : List (String × DiscountCode)
  spin_attempts : List (String × List SpinAttempt)
deriving DecidableEq, Repr

/-! ## Operations from `models.py` -/

/-- `models.update_order_status`.  `save_data` catches its own exceptions and
so never raises; the function returns `False` only when the order id is
unknown. -/
def update_order_status (s : State) (order_id new_status : String) : State × Bool :=
  match lookup? s.orders order_id with
  | some _ =>
    ({ s with orders := updateKey s.orders order_id (fun o => { o with status := new_status }) },
      true)
  | none => (s, false)

/-- `models.delete_order`. -/
def delete_order (s : State) (order_id : String) : State × Bool :=
  match lookup? s.orders order_id with
  | some _ => ({ s with orders := eraseKey s.orders order_id }, true)
  | none => (s, false)

/-- `models.add_to_cart`: rejects an unknown product, a quantity exceeding
current stock, and a cart update that would push the cart line above current
stock. -/
def add_to_cart (s : State) (user_id product_id : String) (quantity : ℕ) : State × Bool :=
  match lookup? s.products product_id with
  | none => (s, false)
  | some product =>
    if product.stock < (quantity : ℤ) then (s, false)
    else
      match lookup? s.cart_items (user_id, product_id) with
      | some item =>
        if product.stock < ((item.quantity + quantity : ℕ) : ℤ) then (s, false)
        else
          let cart1 :=
            updateKey s.cart_items (user_id, product_id)
              (fun ci => { ci with quantity := ci.quantity + quantity })
          ({ s with cart_items := cart1 }, true)
      | none =>
        let line : CartItem := ⟨user_id, product_id, quantity⟩
        ({ s with cart_items := ((user_id, product_id), line) :: s.cart_items }, true)

/-- `models.get_cart_items`: all cart lines whose key starts with the user id. -/
def get_cart_items (s : State) (user_id : String) : List CartItem :=
  (s.cart_items.filter (fun kv => kv.1.1 = user_id)).map (·.2)

/-- The stock-decrement loop inside `models.create_order`: each listed item
decrements its product's stock by the item quantity; an unknown product id is
skipped. -/
def decrementStock (products : List (String × Product)) (items : List OrderItem) :
    List (String × Product) :=
  items.foldl
    (fun ps it => updateKey ps it.product_id (fun p => { p with stock := p.stock - it.quantity }))
    products

/-- `models.create_order`: registers the new order (status `"pending"`), an
empty comment thread, and decrements stock unconditionally.  The fresh
`uuid4` id is passed in as `oid`. -/
def create_order (s : State) (customer_id : String) (items : List OrderItem)
    (total_amount : ℚ) (discount_code : Option String)
    (discount_percentage discount_amount subtotal : ℚ) (oid : String) : State × Order :=
  let o : Order :=
    { id := oid, customer_id := customer_id, items := items, subtotal := subtotal,
      discount_code := discount_code, discount_percentage := discount_percentage,
      discount_amount := discount_amount, total_amount := total_amount, status := "pending" }
  ({ s with orders := (oid, o) :: s.orders,
            order_comments := (oid, []) :: s.order_comments,
            products := decrementStock s.products items }, o)

/-- The window test of `models.get_promotional_products`: an end date is
present (`p.promotional_end_date` truthy) and strictly after `now`. -/
def endDateFuture (end_date : Option ℤ) (now : ℤ) : Bool :=
  match end_date with
  | some t => decide (now < t)
  | none => false

/-- `models.get_promotional_products`: active, flagged promotional, end date
present and strictly in the future. -/
def get_promotional_products (s : State) (now : ℤ) : List Product :=
  (s.products.map (·.2)).filter
    (fun p => p.is_active && p.is_promotional && endDateFuture p.promotional_end_date now)

/-- Python `str.upper()` (ASCII suffices for the generated codes). -/
def strUpper (s : String) : String := ⟨s.data.map Char.toUpper⟩

/-- `models.get_discount_code`: lookup under the upper-cased code string. -/
def get_discount_code (s : State) (code : String) : Option DiscountCode :=
  lookup? s.discount_codes (strUpper code)

/-- Seven days in seconds (`timedelta(days=7)`). -/
def sevenDays : ℤ := 604800

/-- `models.create_discount_code`: the collision-retry loop of the source is
modelled by passing the freshly generated 6-character code in as `code`.
The store is keyed by the generated code and the record carries the
upper-cased copy, exactly as `DiscountCode.__init__` does. -/
def create_discount_code (s : State) (discount_percentage : ℚ) (user_id code : String)
    (now : ℤ) : State × DiscountCode :=
  let d : DiscountCode :=
    { code := strUpper code, discount_percentage := discount_percentage, user_id := user_id,
      is_used := false, expires_at := some (now + sevenDays) }
  ({ s with discount_codes := (code, d) :: s.discount_codes }, d)

/-- The expiry test of `models.validate_discount_code`:
`discount.expires_at and discount.expires_at < datetime.now()` (a stored
datetime is always truthy, so `none` means no expiry). -/
def pastExpiry (expires_at : Option ℤ) (now : ℤ) : Bool :=
  match expires_at with
  | some t => decide (t < now)
  | none => false

/-- Outcome of `models.validate_discount_code`, in the source an
`(ok, payload)` pair whose message distinguishes the failure kinds. -/
inductive ValidateResult where
  | notFound
  | alreadyUsed
  | wrongOwner
  | expired
  | ok (d : DiscountCode)
deriving DecidableEq, Repr

/-- `models.validate_discount_code`: the checks run in source order — unknown
code, used flag, owner, expiry (`expires_at and expires_at < now`).  The
function only reads the store (purity is structural: it returns no state). -/
def validate_discount_code (s : State) (code user_id : String) (now : ℤ) : ValidateResult :=
  match get_discount_code s code with
  | none => .notFound
  | some d =>
    if d.is_used then .alreadyUsed
    else if d.user_id ≠ user_id then .wrongOwner
    else if pastExpiry d.expires_at now then .expired
    else .ok d

/-- `models.use_discount_code`: marks the code used whenever it exists and
the owner matches; it checks neither `is_used` nor `expires_at`. -/
def use_discount_code (s : State) (code user_id : String) : State × Bool :=
  match get_discount_code s code with
  | some d =>
    if d.user_id = user_id then
      let codes1 := updateKey s.discount_codes (strUpper code) (fun c => { c with is_used := true })
      ({ s with discount_codes := codes1 }, true)
    else (s, false)
  | none => (s, false)

/-- Five minutes in seconds (`timedelta(minutes=5)`). -/
def fiveMinutes : ℤ := 300

/-- The window filter of `models.get_user_spin_attempts`:
`attempt.timestamp > now - 5 minutes`. -/
def recentOnly (attempts : List SpinAttempt) (now : ℤ) : List SpinAttempt :=
  attempts.filter (fun a => now - fiveMinutes < a.timestamp)

/-- `models.get_user_spin_attempts`: returns the in-window attempts and
lazily writes the filtered list back when anything was evicted. -/
def get_user_spin_attempts (s : State) (user_id : String) (now : ℤ) :
    State × List SpinAttempt :=
  match lookup? s.spin_attempts user_id with
  | none => (s, [])
  | some attempts =>
    let recent := recentOnly attempts now
    (if recent.length ≠ attempts.length then
        { s with spin_attempts := (user_id, recent) :: s.spin_attempts }
      else s, recent)

/-- `models.can_user_spin`: at most 3 attempts per window. -/
def can_user_spin (s : State) (user_id : String) (now : ℤ) : State × Bool :=
  let (s1, recent) := get_user_spin_attempts s user_id now
  (s1, recent.length < 3)

/-- `models.get_next_spin_number`. -/
def get_next_spin_number (s : State) (user_id : String) (now : ℤ) : State × ℕ :=
  let (s1, recent) := get_user_spin_attempts s user_id now
  (s1, recent.length + 1)

/-- `models.record_spin_attempt`. -/
def record_spin_attempt (s : State) (user_id : String) (spin_number : ℕ)
    (result_discount : ℚ) (now : ℤ) : State × SpinAttempt :=
  let old := (lookup? s.spin_attempts user_id).getD []
  let a : SpinAttempt := ⟨user_id, spin_number, result_discount, now⟩
  ({ s with spin_attempts := (user_id, old ++ [a]) :: s.spin_attempts }, a)

/-- The fixed outcome list of `models.determine_spin_result`. -/
def possible_results : List ℚ := [0, 5, 10, 15, 20, 25, 30]

/-- `models.determine_spin_result`: `random.choice` over `possible_results`,
modelled by an arbitrary index supplied by the random source. -/
def determine_spin_result (randomIndex : ℕ) : ℚ :=
  possible_results.getD (randomIndex % possible_results.length) 0

/-! ## Operations from `routes.py` -/

/-- The `allowed_transitions` table of `routes._perform_status_update`: for a
role and a current status, the list of permitted target statuses.  An unknown
role, or a status with no entry (`.get(old_status, [])`), yields `[]`. -/
def allowedTransitions (role status : String) : List String :=
  if role = "customer" then
    if status = "pending" then ["receipt_pending"]
    else if status = "approved" then ["delivered"]
    else []
  else if role = "vendor" then
    if status = "receipt_pending" then ["admin_review"]
    else []
  else if role = "admin" then
    if status = "pending" then
      ["cancelled", "receipt_pending", "admin_review", "approved", "delivered"]
    else if status = "receipt_pending" then
      ["cancelled", "pending", "admin_review", "approved", "delivered"]
    else if status = "admin_review" then
      ["cancelled", "pending", "receipt_pending", "approved", "delivered"]
    else if status = "approved" then
      ["cancelled", "pending", "receipt_pending", "admin_review", "delivered"]
    else if status = "delivered" then
      ["cancelled", "pending", "receipt_pending", "admin_review", "approved"]
    else []
  else []

/-- The vendor ownership scan of `routes._perform_status_update`: some line
item's product belongs to the vendor. -/
def vendorOwnsItem (s : State) (order : Order) (uid : String) : Bool :=
  order.items.any
    (fun it =>
      match lookup? s.products it.product_id with
      | some p => p.vendor_id = uid
      | none => false)

/-- `routes._perform_status_update`: order and user must exist, the requested
transition must be in the role table, then the role-specific ownership check
runs, and only then is `models.update_order_status` called. -/
def perform_status_update (s : State) (order_id new_status current_user_id : String) :
    State × Bool :=
  match lookup? s.orders order_id with
  | none => (s, false)
  | some order =>
    match lookup? s.users current_user_id with
    | none => (s, false)
    | some user =>
      if new_status ∉ allowedTransitions user.role order.status then (s, false)
      else if user.role = "customer" ∧ order.customer_id ≠ current_user_id then (s, false)
      else if user.role = "vendor" ∧ ¬ (vendorOwnsItem s order current_user_id = true) then
        (s, false)
      else update_order_status s order_id new_status

/-- `routes.admin_delete_order`: only an existing order in `cancelled` status
is handed to `models.delete_order`. -/
def admin_delete_order (s : State) (order_id : String) : State × Bool :=
  match lookup? s.orders order_id with
  | none => (s, false)
  | some order =>
    if order.status ≠ "cancelled" then (s, false)
    else delete_order s order_id

/-- Python truthiness of `product.promotional_price` in the checkout price
test: present and nonzero. -/
def promoPriceTruthy (price : Option ℚ) : Bool :=
  match price with
  | some v => decide (v ≠ 0)
  | none => false

/-- The captured unit price of `routes.checkout`:
`product.promotional_price if product.is_promotional and
product.promotional_price else product.price`.  The promotional end date is
not consulted here. -/
def checkoutPrice (p : Product) : ℚ :=
  if p.is_promotional && promoPriceTruthy p.promotional_price then
    p.promotional_price.getD 0
  else p.price

/-- The order-item accumulation loop of `routes.checkout`: cart lines whose
product has vanished are silently skipped; each kept line captures the
checkout price and adds `price * quantity` to the running total. -/
def buildOrderItems (products : List (String × Product)) (cart : List CartItem) :
    List OrderItem × ℚ :=
  cart.foldl
    (fun acc item =>
      match lookup? products item.product_id with
      | some p => (acc.1 ++ [⟨item.product_id, item.quantity, checkoutPrice p⟩],
          acc.2 + checkoutPrice p * item.quantity)
      | none => acc)
    ([], 0)

/-- The form fields the checkout POST handler reads.  Numeric fields are
modelled as already parsed (`float()` succeeding); `final_total_amount`
defaults to the computed total when absent.  The branch test
`if applied_discount_code and applied_discount_percentage and
applied_discount_amount` reduces to `applied_discount_code ≠ ""` because the
percentage and amount strings default to the truthy `"0"`. -/
structure CheckoutForm where
  discount_code : String
  applied_discount_code : String
  applied_discount_percentage : ℚ
  applied_discount_amount : ℚ
  final_total_amount : Option ℚ
deriving DecidableEq, Repr

/-- `routes.checkout` (POST): an empty cart aborts; otherwise the order items
and subtotal are computed, one of three discount branches selects the totals
and (for the two applying branches) marks the code used ignoring the result,
and `models.create_order` runs.  In the server-validated branch the source
stores `applied_discount_code if applied_discount else None`, which is the
empty string. -/
def checkout (s : State) (uid : String) (form : CheckoutForm) (oid : String) (now : ℤ) :
    State × Option Order :=
  let cart := get_cart_items s uid
  if cart.isEmpty then (s, none)
  else
    let built := buildOrderItems s.products cart
    let subtotal := built.2
    let branch : State × Option String × ℚ × ℚ × ℚ :=
      if form.applied_discount_code ≠ "" then
        let s1 := (use_discount_code s form.applied_discount_code uid).1
        (s1, some form.applied_discount_code, form.applied_discount_percentage,
          form.applied_discount_amount, form.final_total_amount.getD built.2)
      else if form.discount_code ≠ "" then
        match validate_discount_code s form.discount_code uid now with
        | .ok d =>
          let amt := subtotal * d.discount_percentage / 100
          let s1 := (use_discount_code s form.discount_code uid).1
          (s1, some "", d.discount_percentage, amt, built.2 - amt)
        | _ => (s, none, 0, 0, built.2)
      else (s, none, 0, 0, built.2)
    match branch with
    | (s1, dc, pct, amt, totalF) =>
      let next := create_order s1 uid built.1 totalF dc pct amt subtotal oid
      (next.1, some next.2)

/-- The percentage whitelist of `routes.spin_wheel_result`. -/
def allowed_percentages : List ℚ := [5, 10, 15, 20, 25, 30, 50]

/-- The JSON responses of `routes.spin_wheel_result` that matter to the
claims. -/
inductive SpinOutcome where
  | limitReached
  | noWin (spin_number : ℕ)
  | invalidPct (pct : ℚ)
  | won (code : String) (pct : ℚ) (spin_number : ℕ)
deriving DecidableEq, Repr

/-- `routes.spin_wheel_result`: rejects when the window is full; otherwise
records an attempt whose result is the client-supplied `expected_discount`
(recorded before any whitelist check), then returns no-win for `0`, an error
for a nonzero value outside the whitelist, and otherwise creates a discount
code (`fresh` stands for the collision-free generated code string). -/
def spin_wheel_result (s : State) (uid : String) (expected_discount : ℚ) (now : ℤ)
    (fresh : String) : State × SpinOutcome :=
  let c := can_user_spin s uid now
  if ¬ (c.2 = true) then (c.1, .limitReached)
  else
    let n := get_next_spin_number c.1 uid now
    let result_discount := expected_discount
    let r := record_spin_attempt n.1 uid n.2 result_discount now
    if result_discount = 0 then (r.1, .noWin n.2)
    else if result_discount ∉ allowed_percentages then (r.1, .invalidPct result_discount)
    else
      let d := create_discount_code r.1 result_discount uid fresh now
      (d.1, .won fresh result_discount n.2)

/-! ## Spec-side definitions

These definitions transcribe the specification text (section 4.1 table and
the promotional-window rule) and exist to be compared with the code-derived
definitions above. -/

/-- The six listed order statuses of spec section 4.1. -/
def statusList : List String :=
  ["pending", "receipt_pending", "admin_review", "approved", "delivered", "cancelled"]

/-- The source statuses of the admin rows in the spec table (every listed
status except `cancelled`). -/
def adminSources : List String :=
  ["pending", "receipt_pending", "admin_review", "approved", "delivered"]

/-- The canonical role-gated transition table as the spec states it:
customer `pending → receipt_pending` and `approved → delivered`; vendor
`receipt_pending → admin_review`; admin from any listed source status to any
other listed status. -/
def specAllowed (role status target : String) : Bool :=
  (role == "customer" &&
    ((status == "pending" && target == "receipt_pending") ||
      (status == "approved" && target == "delivered"))) ||
  (role == "vendor" && (status == "receipt_pending" && target == "admin_review")) ||
  (role == "admin" &&
    (adminSources.contains status && statusList.contains target && target != status))

/-- The role-specific ownership requirement of the spec: a customer only on
their own order, a vendor only on an order containing one of their products,
no restriction for the admin. -/
def ownershipOk (s : State) (order : Order) (role uid : String) : Prop :=
  (role = "customer" → order.customer_id = uid) ∧
  (role = "vendor" → vendorOwnsItem s order uid = true)

/-- The code's transition table agrees with the table transcribed from the
spec, for every role, current status and target string. -/
theorem mem_allowedTransitions_iff (role status target : String) :
    target ∈ allowedTransitions role status ↔ specAllowed role status target = true := by
  unfold allowedTransitions specAllowed adminSources statusList
  by_cases hc : role = "customer"
  · subst hc
    by_cases h1 : status = "pending"
    · subst h1; simp
    · by_cases h2 : status = "approved"
      · subst h2; simp
      · simp [h1, h2]
  · by_cases hv : role = "vendor"
    · subst hv
      by_cases h1 : status = "receipt_pending"
      · subst h1; simp
      · simp [h1]
    · by_cases ha : role = "admin"
      · subst ha
        by_cases h1 : status = "pending"
        · subst h1; simp; aesop
        · by_cases h2 : status = "receipt_pending"
          · subst h2; simp; aesop
          · by_cases h3 : status = "admin_review"
            · subst h3; simp; aesop
            · by_cases h4 : status = "approved"
              · subst h4; simp; aesop
              · by_cases h5 : status = "delivered"
                · subst h5; simp; aesop
                · simp [h1, h2, h3, h4, h5, hc, hv]
      · simp [hc, hv, ha]

/-! ## Derived forms of the two checkout folds -/

/-- The order line a cart line turns into, if its product exists. -/
def itemOf (products : List (String × Product)) (ci : CartItem) : Option OrderItem :=
  (lookup? products ci.product_id).map
    (fun p => ⟨ci.product_id, ci.quantity, checkoutPrice p⟩)

/-- The order lines produced from a cart (vanished products are dropped). -/
def cartLines (products : List (String × Product)) (cart : List CartItem) : List OrderItem :=
  cart.filterMap (itemOf products)

/-- The subtotal formula: sum of captured price times quantity. -/
def linesTotal (items : List OrderItem) : ℚ :=
  (items.map (fun it => it.price * (it.quantity : ℚ))).sum

theorem buildOrderItems_go (products : List (String × Product)) (cart : List CartItem)
    (acc : List OrderItem) (t : ℚ) :
    cart.foldl
      (fun acc item =>
        match lookup? products item.product_id with
        | some p => (acc.1 ++ [⟨item.product_id, item.quantity, checkoutPrice p⟩],
            acc.2 + checkoutPrice p * item.quantity)
        | none => acc)
      (acc, t) =
    (acc ++ cartLines products cart, t + linesTotal (cartLines products cart)) := by
  induction cart generalizing acc t with
  | nil => simp [cartLines, linesTotal]
  | cons ci rest ih =>
    cases hp : lookup? products ci.product_id with
    | none =>
      simp only [List.foldl_cons, hp]
      rw [ih]
      simp [cartLines, itemOf, hp]
    | some p =>
      simp only [List.foldl_cons, hp]
      rw [ih]
      have hl : cartLines products (ci :: rest) =
          ⟨ci.product_id, ci.quantity, checkoutPrice p⟩ :: cartLines products rest := by
        simp [cartLines, itemOf, hp]
      rw [hl]
      simp only [Prod.mk.injEq]
      refine ⟨by simp, ?_⟩
      simp [linesTotal]
      ring

/-- `buildOrderItems` unfolded into its two components. -/
theorem buildOrderItems_eq (products : List (String × Product)) (cart : List CartItem) :
    buildOrderItems products cart =
      (cartLines products cart, linesTotal (cartLines products cart)) := by
  have h := buildOrderItems_go products cart [] 0
  simpa [buildOrderItems] using h

/-- Total quantity the order lines demand of one product. -/
def itemsQtyFor (items : List OrderItem) (pid : String) : ℕ :=
  ((items.filter (fun it => it.product_id = pid)).map (·.quantity)).sum

/-- Total quantity a cart demands of one product. -/
def cartQtyFor (cart : List CartItem) (pid : String) : ℕ :=
  ((cart.filter (fun ci => ci.product_id = pid)).map (·.quantity)).sum

theorem lookup_decrementStock (items : List OrderItem) (products : List (String × Product))
    (pid : String) :
    lookup? (decrementStock products items) pid =
      (lookup? products pid).map
        (fun p => { p with stock := p.stock - (itemsQtyFor items pid : ℤ) }) := by
  induction items generalizing products with
  | nil =>
    cases h : lookup? products pid <;> simp [decrementStock, itemsQtyFor, h]
  | cons it rest ih =>
    have hstep : decrementStock products (it :: rest) =
        decrementStock
          (updateKey products it.product_id (fun p => { p with stock := p.stock - it.quantity }))
          rest := rfl
    rw [hstep, ih]
    by_cases hpid : it.product_id = pid
    · rw [hpid, lookup_updateKey_self]
      cases h : lookup? products pid with
      | none => simp
      | some p =>
        simp only [Option.map_some']
        have hq : itemsQtyFor (it :: rest) pid = it.quantity + itemsQtyFor rest pid := by
          simp [itemsQtyFor, hpid]
        rw [hq]
        simp only [Option.some.injEq]
        congr 1
        push_cast
        ring
    · rw [lookup_updateKey_other _ _ _ _ hpid]
      have hq : itemsQtyFor (it :: rest) pid = itemsQtyFor rest pid := by
        simp [itemsQtyFor, hpid]
      rw [hq]

theorem itemsQtyFor_cartLines (products : List (String × Product)) (cart : List CartItem)
    (pid : String) (hp : (lookup? products pid).isSome) :
    itemsQtyFor (cartLines products cart) pid = cartQtyFor cart pid := by
  induction cart with
  | nil => simp [cartLines, itemsQtyFor, cartQtyFor]
  | cons ci rest ih =>
    by_cases hpp : ci.product_id = pid
    · cases h : lookup? products ci.product_id with
      | none =>
        exfalso
        rw [hpp] at h
        rw [h] at hp
        simp at hp
      | some p =>
        have hl : cartLines products (ci :: rest) =
            ⟨ci.product_id, ci.quantity, checkoutPrice p⟩ :: cartLines products rest := by
          simp [cartLines, itemOf, h]
        have h1 : itemsQtyFor (⟨ci.product_id, ci.quantity, checkoutPrice p⟩ ::
            cartLines products rest) pid =
            ci.quantity + itemsQtyFor (cartLines products rest) pid := by
          simp [itemsQtyFor, hpp]
        have h2 : cartQtyFor (ci :: rest) pid = ci.quantity + cartQtyFor rest pid := by
          simp [cartQtyFor, hpp]
        rw [hl, h1, h2, ih]
    · cases h : lookup? products ci.product_id with
      | none =>
        have hl : cartLines products (ci :: rest) = cartLines products rest := by
          simp [cartLines, itemOf, h]
        have h2 : cartQtyFor (ci :: rest) pid = cartQtyFor rest pid := by
          simp [cartQtyFor, hpp]
        rw [hl, h2, ih]
      | some p =>
        have hl : cartLines products (ci :: rest) =
            ⟨ci.product_id, ci.quantity, checkoutPrice p⟩ :: cartLines products rest := by
          simp [cartLines, itemOf, h]
        have h1 : itemsQtyFor (⟨ci.product_id, ci.quantity, checkoutPrice p⟩ ::
            cartLines products rest) pid = itemsQtyFor (cartLines products rest) pid := by
          simp [itemsQtyFor, hpp]
        have h2 : cartQtyFor (ci :: rest) pid = cartQtyFor rest pid := by
          simp [cartQtyFor, hpp]
        rw [hl, h1, h2, ih]

theorem cartQtyFor_of_nodup (cart : List CartItem)
    (hnd : (cart.map (·.product_id)).Nodup) (ci : CartItem) (hci : ci ∈ cart) :
    cartQtyFor cart ci.product_id = ci.quantity := by
  induction cart with
  | nil => cases hci
  | cons c rest ih =>
    rw [List.map_cons, List.nodup_cons] at hnd
    cases hci with
    | head =>
      have hall : ∀ x ∈ rest, ¬ (x.product_id = ci.product_id) := by
        intro x hx hc
        exact hnd.1 (by rw [← hc]; exact List.mem_map_of_mem _ hx)
      have hfil : rest.filter (fun x => x.product_id = ci.product_id) = [] :=
        List.filter_eq_nil_iff.mpr (fun a ha => by simp [hall a ha])
      simp [cartQtyFor, hfil]
    | tail _ hmem =>
      have hne : c.product_id ≠ ci.product_id := by
        intro hc
        exact hnd.1 (by rw [hc]; exact List.mem_map_of_mem _ hmem)
      have := ih hnd.2 hmem
      simp [cartQtyFor, hne] at this ⊢
      exact this

theorem itemsQtyFor_not_mentioned (items : List OrderItem) (pid : String)
    (h : pid ∉ items.map (·.product_id)) : itemsQtyFor items pid = 0 := by
  have hall : ∀ it ∈ items, ¬ (it.product_id = pid) := by
    intro it hit hc
    exact h (by rw [← hc]; exact List.mem_map_of_mem _ hit)
  have hfil : items.filter (fun it => it.product_id = pid) = [] :=
    List.filter_eq_nil_iff.mpr (fun a ha => by simp [hall a ha])
  simp [itemsQtyFor, hfil]

theorem cartLines_ids_sub (products : List (String × Product)) (cart : List CartItem)
    (pid : String) (h : pid ∉ cart.map (·.product_id)) :
    pid ∉ (cartLines products cart).map (·.product_id) := by
  intro hmem
  apply h
  simp only [cartLines, List.mem_map] at hmem
  obtain ⟨it, hit, rfl⟩ := hmem
  rw [List.mem_filterMap] at hit
  obtain ⟨ci, hci, hoi⟩ := hit
  unfold itemOf at hoi
  cases hl : lookup? products ci.product_id with
  | none => rw [hl] at hoi; cases hoi
  | some p =>
    rw [hl] at hoi
    simp at hoi
    rw [← hoi]
    exact List.mem_map_of_mem _ hci

/-! ## Which parts of the state each operation leaves alone -/

theorem use_discount_code_products (s : State) (code uid : String) :
    (use_discount_code s code uid).1.products = s.products := by
  unfold use_discount_code
  cases get_discount_code s code with
  | none => rfl
  | some d =>
    by_cases h : d.user_id = uid <;> simp [h]

theorem create_order_discount_codes (s : State) (cid : String) (items : List OrderItem)
    (t : ℚ) (dc : Option String) (dp da sub : ℚ) (oid : String) :
    (create_order s cid items t dc dp da sub oid).1.discount_codes = s.discount_codes := rfl

theorem add_to_cart_products (s : State) (uid pid : String) (qty : ℕ) :
    (add_to_cart s uid pid qty).1.products = s.products := by
  unfold add_to_cart
  repeat' split
  all_goals rfl

theorem perform_status_update_products (s : State) (oid ns uid : String) :
    (perform_status_update s oid ns uid).1.products = s.products := by
  unfold perform_status_update
  cases lookup? s.orders oid with
  | none => rfl
  | some order =>
    cases lookup? s.users uid with
    | none => rfl
    | some user =>
      by_cases h1 : ns ∉ allowedTransitions user.role order.status
      · simp [h1]
      · simp only [if_neg h1]
        by_cases h2 : user.role = "customer" ∧ order.customer_id ≠ uid
        · simp [h2]
        · simp only [if_neg h2]
          by_cases h3 : user.role = "vendor" ∧ ¬ (vendorOwnsItem s order uid = true)
          · simp [h3]
          · simp only [if_neg h3]
            unfold update_order_status
            cases lookup? s.orders oid <;> rfl

theorem admin_delete_order_products (s : State) (oid : String) :
    (admin_delete_order s oid).1.products = s.products := by
  unfold admin_delete_order delete_order
  cases lookup? s.orders oid with
  | none => rfl
  | some order =>
    by_cases h : order.status ≠ "cancelled"
    · simp [h]
    · simp only [if_neg h]

/-- Result and final products of the checkout POST on a nonempty cart: every
branch creates the order from the same built lines and decrements stock the
same way. -/
theorem checkout_unfold (s : State) (uid : String) (form : CheckoutForm) (oid : String)
    (now : ℤ) (hne : ¬ (get_cart_items s uid).isEmpty = true) :
    ∃ dc pct amt totalF,
      (checkout s uid form oid now).2 =
        some { id := oid, customer_id := uid,
               items := cartLines s.products (get_cart_items s uid),
               subtotal := linesTotal (cartLines s.products (get_cart_items s uid)),
               discount_code := dc, discount_percentage := pct, discount_amount := amt,
               total_amount := totalF, status := "pending" } ∧
      (checkout s uid form oid now).1.products =
        decrementStock s.products (cartLines s.products (get_cart_items s uid)) := by
  unfold checkout
  rw [if_neg hne, buildOrderItems_eq]
  dsimp only
  by_cases h1 : form.applied_discount_code ≠ ""
  · rw [if_pos h1]
    refine ⟨some form.applied_discount_code, form.applied_discount_percentage,
      form.applied_discount_amount, form.final_total_amount.getD
        (linesTotal (cartLines s.products (get_cart_items s uid))), ?_, ?_⟩
    · rfl
    · show (create_order _ _ _ _ _ _ _ _ _).1.products = _
      unfold create_order
      simp [use_discount_code_products]
  · rw [if_neg h1]
    by_cases h2 : form.discount_code ≠ ""
    · rw [if_pos h2]
      cases hv : validate_discount_code s form.discount_code uid now with
      | ok d =>
        refine ⟨some "", d.discount_percentage,
          linesTotal (cartLines s.products (get_cart_items s uid)) * d.discount_percentage / 100,
          _, rfl, ?_⟩
        show (create_order _ _ _ _ _ _ _ _ _).1.products = _
        unfold create_order
        simp [use_discount_code_products]
      | notFound => exact ⟨none, 0, 0, _, rfl, rfl⟩
      | alreadyUsed => exact ⟨none, 0, 0, _, rfl, rfl⟩
      | wrongOwner => exact ⟨none, 0, 0, _, rfl, rfl⟩
      | expired => exact ⟨none, 0, 0, _, rfl, rfl⟩
    · rw [if_neg h2]
      exact ⟨none, 0, 0, _, rfl, rfl⟩

/-- The all-empty store, the base for the concrete test states. -/
def emptyState : State := ⟨[], [], [], [], [], [], []⟩

/-- C2.  Checking out a nonempty cart (with distinct products, as the cart
store guarantees) creates an order in status `pending` whose subtotal is the
sum of captured price times quantity over the cart, decrements each ordered
product's stock by exactly the ordered quantity, and leaves every other
product's stock entry untouched. -/
theorem checkout_order_creation (s : State) (uid : String) (form : CheckoutForm)
    (oid : String) (now : ℤ)
    (hne : ¬ (get_cart_items s uid).isEmpty = true)
    (hnd : ((get_cart_items s uid).map (·.product_id)).Nodup) :
    ∃ o, (checkout s uid form oid now).2 = some o ∧
      o.status = "pending" ∧
      o.subtotal = linesTotal (cartLines s.products (get_cart_items s uid)) ∧
      (∀ ci ∈ get_cart_items s uid, ∀ p, lookup? s.products ci.product_id = some p →
        lookup? (checkout s uid form oid now).1.products ci.product_id =
          some { p with stock := p.stock - (ci.quantity : ℤ) }) ∧
      (∀ pid, pid ∉ (get_cart_items s uid).map (·.product_id) →
        lookup? (checkout s uid form oid now).1.products pid = lookup? s.products pid) := by
  obtain ⟨dc, pct, amt, totalF, h2, hprod⟩ := checkout_unfold s uid form oid now hne
  refine ⟨_, h2, rfl, rfl, ?_, ?_⟩
  · intro ci hci p hp
    rw [hprod, lookup_decrementStock, hp]
    have hq : itemsQtyFor (cartLines s.products (get_cart_items s uid)) ci.product_id =
        ci.quantity := by
      rw [itemsQtyFor_cartLines _ _ _ (by rw [hp]; rfl)]
      exact cartQtyFor_of_nodup _ hnd ci hci
    rw [hq]
    rfl
  · intro pid hpid
    rw [hprod, lookup_decrementStock]
    have h0 : itemsQtyFor (cartLines s.products (get_cart_items s uid)) pid = 0 :=
      itemsQtyFor_not_mentioned _ _ (cartLines_ids_sub _ _ _ hpid)
    rw [h0]
    cases hl : lookup? s.products pid <;> simp

/-- The checkout form with none of the discount fields set. -/
def noDiscountForm : CheckoutForm :=
  { discount_code := "", applied_discount_code := "", applied_discount_percentage := 0,
    applied_discount_amount := 0, final_total_amount := none }

/-- The product of the C2 witness: base price 10.00, stock 5. -/
def prodC2 : Product :=
  { price := 10, vendor_id := "v1", is_active := true, stock := 5, is_promotional := false,
    promotional_price := none, promotional_end_date := none }

/-- Store for the C2 witness: customer `u1` has 2 units of `p1` in the cart. -/
def stateC2 : State :=
  { emptyState with
      users := [("u1", ⟨"customer"⟩)]
      products := [("p1", prodC2)]
      cart_items := [(("u1", "p1"), ⟨"u1", "p1", 2⟩)] }

/-- C2 witness: the order over [(p1, qty 2, price 10.00)] is pending, has
subtotal 20.00, and leaves p1 with stock 3. -/
theorem checkout_order_creation_witness :
    ∃ o, (checkout stateC2 "u1" noDiscountForm "o1" 0).2 = some o ∧
      o.status = "pending" ∧ o.subtotal = 20 ∧
      lookup? (checkout stateC2 "u1" noDiscountForm "o1" 0).1.products "p1" =
        some { prodC2 with stock := 3 } := by
  obtain ⟨o, h1, h2, h3, h4, h5⟩ :=
    checkout_order_creation stateC2 "u1" noDiscountForm "o1" 0 (by decide) (by decide)
  refine ⟨o, h1, h2, ?_, ?_⟩
  · rw [h3]
    have hcl : cartLines stateC2.products (get_cart_items stateC2 "u1") =
        [⟨"p1", 2, 10⟩] := by decide
    rw [hcl]
    norm_num [linesTotal]
  · have h := h4 ⟨"u1", "p1", 2⟩ (by decide) prodC2 (by decide)
    rw [h]; decide

/-- The claim's promotional-window pricing rule, transcribed from the spec
for comparison: the promotional price applies exactly when `is_promotional`
is set AND `promotional_end_date` is set AND the end date is after `now`. -/
def claimCapturedPrice (p : Product) (now : ℤ) : ℚ :=
  if p.is_promotional && endDateFuture p.promotional_end_date now then
    p.promotional_price.getD 0
  else p.price

/-- A promotional product whose window closed at time 50: price 10,
promotional price 6. -/
def prodC3 : Product :=
  { price := 10, vendor_id := "v1", is_active := true, stock := 5, is_promotional := true,
    promotional_price := some 6, promotional_end_date := some 50 }

/-- C3 counterexample: at time 100 the promotional window of `prodC3` has
already passed, so the claim demands the base price 10, but the checkout
pipeline captures the promotional price 6 — the end date is never consulted
there. -/
theorem checkout_price_counterexample :
    endDateFuture prodC3.promotional_end_date 100 = false ∧
    claimCapturedPrice prodC3 100 = 10 ∧
    checkoutPrice prodC3 = 6 ∧
    buildOrderItems [("p1", prodC3)] [⟨"u1", "p1", 1⟩] = ([⟨"p1", 1, 6⟩], 6) ∧
    checkoutPrice prodC3 ≠ claimCapturedPrice prodC3 100 := by
  refine ⟨by decide, by decide, by decide, ?_, by decide⟩
  rw [buildOrderItems_eq]
  have hcl : cartLines [("p1", prodC3)] [⟨"u1", "p1", 1⟩] = [⟨"p1", 1, 6⟩] := by decide
  rw [hcl]
  norm_num [linesTotal]

/-- C3 amended: every captured line price is `checkoutPrice` of its product,
which uses the promotional price exactly when `is_promotional` is set and
`promotional_price` is present and nonzero — `promotional_end_date` plays no
role at checkout; the end-date window is honoured only by
`get_promotional_products`. -/
theorem checkout_price_spec (products : List (String × Product)) (cart : List CartItem) :
    (∀ it ∈ (buildOrderItems products cart).1, ∀ p, lookup? products it.product_id = some p →
      it.price = checkoutPrice p) ∧
    (∀ p : Product, ∀ e1 e2 : Option ℤ,
      checkoutPrice { p with promotional_end_date := e1 } =
        checkoutPrice { p with promotional_end_date := e2 }) ∧
    (∀ p : Product, p.is_promotional = true → ∀ v : ℚ, p.promotional_price = some v →
      v ≠ 0 → checkoutPrice p = v) ∧
    (∀ p : Product, p.is_promotional = false ∨ p.promotional_price = none ∨
      p.promotional_price = some 0 → checkoutPrice p = p.price) ∧
    (∀ s now, ∀ p : Product, p ∈ get_promotional_products s now ↔
      (p ∈ s.products.map (·.2) ∧ p.is_active = true ∧ p.is_promotional = true ∧
        endDateFuture p.promotional_end_date now = true)) := by
  refine ⟨?_, ?_, ?_, ?_, ?_⟩
  · intro it hit p hp
    rw [buildOrderItems_eq] at hit
    simp only [cartLines, List.mem_filterMap] at hit
    obtain ⟨ci, hci, hoi⟩ := hit
    unfold itemOf at hoi
    cases hl : lookup? products ci.product_id with
    | none => rw [hl] at hoi; cases hoi
    | some p0 =>
      rw [hl] at hoi
      simp only [Option.map_some', Option.some.injEq] at hoi
      subst hoi
      simp only at hp
      rw [hl] at hp
      cases hp
      rfl
  · intro p e1 e2
    simp [checkoutPrice, promoPriceTruthy]
  · intro p hpromo v hv hnz
    simp [checkoutPrice, promoPriceTruthy, hpromo, hv, hnz]
  · intro p hcase
    rcases hcase with h | h | h <;> simp [checkoutPrice, promoPriceTruthy, h]
  · intro s now p
    simp [get_promotional_products, List.mem_filter, and_assoc]

/-- C3 witness: a cart line on the expired-promotion product `prodC3` is
captured at the promotional price 6, while `get_promotional_products` at the
same time excludes the product. -/
theorem checkout_price_spec_witness :
    (⟨"p1", 1, 6⟩ : OrderItem).price = checkoutPrice prodC3 ∧
    checkoutPrice prodC3 = 6 ∧
    get_promotional_products
      { emptyState with products := [("p1", prodC3)] } 100 = [] := by
  have h := checkout_price_spec [("p1", prodC3)] [⟨"u1", "p1", 1⟩]
  refine ⟨?_, ?_, ?_⟩
  · exact h.1 ⟨"p1", 1, 6⟩ (by decide) prodC3 (by decide)
  · exact h.2.2.1 prodC3 (by decide) 6 (by decide) (by decide)
  · decide

/-- C1.  For an existing order and an existing requesting user, the status
update performed by `routes._perform_status_update` sets the order's status
to the requested target exactly when the (role, current status, target)
triple is in the canonical transition table of spec section 4.1 and the
role-specific ownership check passes; in every other case the request is
rejected and the whole state — in particular `order.status` — is unchanged. -/
theorem status_update_correct (s : State) (oid target uid : String) (order : Order)
    (user : User) (ho : lookup? s.orders oid = some order)
    (hu : lookup? s.users uid = some user) :
    ((specAllowed user.role order.status target = true ∧ ownershipOk s order user.role uid) →
      (perform_status_update s oid target uid).2 = true ∧
      lookup? (perform_status_update s oid target uid).1.orders oid =
        some { order with status := target }) ∧
    (¬ (specAllowed user.role order.status target = true ∧
        ownershipOk s order user.role uid) →
      (perform_status_update s oid target uid).2 = false ∧
      (perform_status_update s oid target uid).1 = s) := by
  have hspec := mem_allowedTransitions_iff user.role order.status target
  by_cases h1 : target ∈ allowedTransitions user.role order.status
  · by_cases h2 : user.role = "customer" ∧ order.customer_id ≠ uid
    · have hP : perform_status_update s oid target uid = (s, false) := by
        simp [perform_status_update, ho, hu, h1, h2]
      constructor
      · rintro ⟨-, hown, -⟩
        exact absurd (hown h2.1) h2.2
      · intro _
        rw [hP]
        exact ⟨rfl, rfl⟩
    · by_cases h3 : user.role = "vendor" ∧ ¬ (vendorOwnsItem s order uid = true)
      · have hP : perform_status_update s oid target uid = (s, false) := by
          simp only [perform_status_update, ho, hu]
          rw [if_neg (by simpa using h1), if_neg h2, if_pos h3]
        constructor
        · rintro ⟨-, -, hown⟩
          exact absurd (hown h3.1) h3.2
        · intro _
          rw [hP]
          exact ⟨rfl, rfl⟩
      · have hP : perform_status_update s oid target uid =
            ({ s with orders :=
                updateKey s.orders oid (fun o => { o with status := target }) }, true) := by
          simp only [perform_status_update, ho, hu]
          rw [if_neg (by simpa using h1), if_neg h2, if_neg h3]
          simp [update_order_status, ho]
        constructor
        · intro _
          refine ⟨by rw [hP], ?_⟩
          rw [hP]
          show lookup? (updateKey s.orders oid _) oid = _
          rw [lookup_updateKey_self, ho]
          rfl
        · intro hno
          exfalso
          apply hno
          refine ⟨hspec.mp h1, ?_, ?_⟩
          · intro hc
            by_contra hne
            exact h2 ⟨hc, hne⟩
          · intro hv
            by_contra hno2
            exact h3 ⟨hv, hno2⟩
  · have hP : perform_status_update s oid target uid = (s, false) := by
      simp [perform_status_update, ho, hu, h1]
    constructor
    · rintro ⟨hs, -⟩
      exact absurd (hspec.mpr hs) h1
    · intro _
      rw [hP]
      exact ⟨rfl, rfl⟩

/-- A pending order of customer `u1`, used by the concrete witnesses. -/
def orderW : Order :=
  { id := "o1", customer_id := "u1", items := [], subtotal := 0, discount_code := none,
    discount_percentage := 0, discount_amount := 0, total_amount := 0, status := "pending" }

/-- Store containing customer `u1` and their pending order `o1`. -/
def stateW : State :=
  { emptyState with users := [("u1", ⟨"customer"⟩)], orders := [("o1", orderW)] }

/-- C1 witness: customer `u1` moves their own pending order to
`receipt_pending`, as the table allows. -/
theorem status_update_correct_witness :
    (perform_status_update stateW "o1" "receipt_pending" "u1").2 = true ∧
    lookup? (perform_status_update stateW "o1" "receipt_pending" "u1").1.orders "o1" =
      some { orderW with status := "receipt_pending" } := by
  have h := status_update_correct stateW "o1" "receipt_pending" "u1" orderW ⟨"customer"⟩
    (by rfl) (by rfl)
  exact h.1 ⟨by decide, fun _ => rfl, fun hv => absurd hv (by decide)⟩

/-- C6.  `validate_discount_code` resolves, in source order: an unknown code
to NotFound; a used code to AlreadyUsed (whatever the expiry); then an owner
mismatch to WrongOwner; then a past expiry to Expired; otherwise it returns
the code record.  It only reads the store — the embedding returns no state,
matching the mutation-free source. -/
theorem validate_discount_code_cases (s : State) (code uid : String) (now : ℤ) :
    (get_discount_code s code = none →
      validate_discount_code s code uid now = .notFound) ∧
    (∀ d, get_discount_code s code = some d → d.is_used = true →
      validate_discount_code s code uid now = .alreadyUsed) ∧
    (∀ d, get_discount_code s code = some d → d.is_used = false → d.user_id ≠ uid →
      validate_discount_code s code uid now = .wrongOwner) ∧
    (∀ d, get_discount_code s code = some d → d.is_used = false → d.user_id = uid →
      pastExpiry d.expires_at now = true →
      validate_discount_code s code uid now = .expired) ∧
    (∀ d, get_discount_code s code = some d → d.is_used = false → d.user_id = uid →
      pastExpiry d.expires_at now = false →
      validate_discount_code s code uid now = .ok d) := by
  refine ⟨?_, ?_, ?_, ?_, ?_⟩
  · intro h
    simp [validate_discount_code, h]
  · intro d hd hu
    simp [validate_discount_code, hd, hu]
  · intro d hd hu ho
    simp [validate_discount_code, hd, hu, ho]
  · intro d hd hu ho he
    simp [validate_discount_code, hd, hu, ho, he]
  · intro d hd hu ho he
    simp [validate_discount_code, hd, hu, ho, he]

/-- A used discount code of `u1` (expiry far in the future). -/
def codeUsed : DiscountCode := ⟨"CODEAA", 10, "u1", true, some 1000⟩

/-- A fresh discount code owned by `u2`. -/
def codeWrong : DiscountCode := ⟨"CODEBB", 10, "u2", false, some 1000⟩

/-- A fresh but expired discount code of `u1`. -/
def codeExp : DiscountCode := ⟨"CODECC", 10, "u1", false, some 10⟩

/-- A fresh, valid discount code of `u1`. -/
def codeOk : DiscountCode := ⟨"CODEDD", 10, "u1", false, some 1000⟩

/-- Discount-code store exercising all validation outcomes. -/
def stateC6 : State :=
  { emptyState with
      discount_codes := [("CODEAA", codeUsed), ("CODEBB", codeWrong), ("CODECC", codeExp),
        ("CODEDD", codeOk)] }

/-- C6 witness: at time 20, each stored code hits its documented outcome —
including AlreadyUsed before expiry and WrongOwner for the foreign code. -/
theorem validate_discount_code_cases_witness :
    validate_discount_code stateC6 "NOPE" "u1" 20 = .notFound ∧
    validate_discount_code stateC6 "CODEAA" "u1" 20 = .alreadyUsed ∧
    validate_discount_code stateC6 "CODEBB" "u1" 20 = .wrongOwner ∧
    validate_discount_code stateC6 "CODECC" "u1" 20 = .expired ∧
    validate_discount_code stateC6 "CODEDD" "u1" 20 = .ok codeOk := by
  refine ⟨?_, ?_, ?_, ?_, ?_⟩
  · exact (validate_discount_code_cases stateC6 "NOPE" "u1" 20).1 (by decide)
  · exact (validate_discount_code_cases stateC6 "CODEAA" "u1" 20).2.1 codeUsed
      (by decide) (by decide)
  · exact (validate_discount_code_cases stateC6 "CODEBB" "u1" 20).2.2.1 codeWrong
      (by decide) (by decide) (by decide)
  · exact (validate_discount_code_cases stateC6 "CODECC" "u1" 20).2.2.2.1 codeExp
      (by decide) (by decide) (by decide) (by decide)
  · exact (validate_discount_code_cases stateC6 "CODEDD" "u1" 20).2.2.2.2 codeOk
      (by decide) (by decide) (by decide) (by decide)

/-- C10.  `use_discount_code` succeeds — returning True and setting the used
flag — exactly when the code exists and its owner is `uid`; neither
`is_used` nor `expires_at` is consulted, and on failure nothing changes. -/
theorem use_discount_code_spec (s : State) (code uid : String) :
    (∀ d, get_discount_code s code = some d → d.user_id = uid →
      (use_discount_code s code uid).2 = true ∧
      lookup? (use_discount_code s code uid).1.discount_codes (strUpper code) =
        some { d with is_used := true } ∧
      (∀ k, k ≠ strUpper code →
        lookup? (use_discount_code s code uid).1.discount_codes k =
          lookup? s.discount_codes k)) ∧
    (∀ d, get_discount_code s code = some d → d.user_id ≠ uid →
      use_discount_code s code uid = (s, false)) ∧
    (get_discount_code s code = none → use_discount_code s code uid = (s, false)) := by
  refine ⟨?_, ?_, ?_⟩
  · intro d hd ho
    have hstep : (use_discount_code s code uid).1 =
        { s with discount_codes :=
            updateKey s.discount_codes (strUpper code) (fun c => { c with is_used := true }) } := by
      simp [use_discount_code, hd, ho]
    refine ⟨by simp [use_discount_code, hd, ho], ?_, ?_⟩
    · rw [hstep]
      show lookup? (updateKey _ _ _) _ = _
      rw [lookup_updateKey_self]
      unfold get_discount_code at hd
      rw [hd]
      rfl
    · intro k hk
      rw [hstep]
      show lookup? (updateKey _ _ _) _ = _
      exact lookup_updateKey_other _ _ _ _ (fun hc => hk hc.symm)
  · intro d hd ho
    simp [use_discount_code, hd, ho]
  · intro h
    simp [use_discount_code, h]

/-- C10 witness: the expired code `CODECC` and the already-used code
`CODEAA` are both consumed successfully by their owner, while the foreign
code `CODEBB` fails with no state change. -/
theorem use_discount_code_spec_witness :
    (use_discount_code stateC6 "CODECC" "u1").2 = true ∧
    lookup? (use_discount_code stateC6 "CODECC" "u1").1.discount_codes "CODECC" =
      some { codeExp with is_used := true } ∧
    (use_discount_code stateC6 "CODEAA" "u1").2 = true ∧
    use_discount_code stateC6 "CODEBB" "u1" = (stateC6, false) := by
  have h1 := (use_discount_code_spec stateC6 "CODECC" "u1").1 codeExp (by decide) (by decide)
  have h2 := (use_discount_code_spec stateC6 "CODEAA" "u1").1 codeUsed (by decide) (by decide)
  have h3 := (use_discount_code_spec stateC6 "CODEBB" "u1").2.1 codeWrong (by decide) (by decide)
  exact ⟨h1.1, h1.2.1, h2.1, h3⟩

/-- C8.  `can_user_spin` is true exactly when fewer than 3 stored attempts
fall in the trailing five-minute window (`timestamp > now - 5 min`); three
in-window attempts force false; once five minutes have elapsed past every
attempt the user can spin again, the in-window attempt list is empty, and
the read lazily evicts the stale attempts from the store. -/
theorem spin_window_spec (s : State) (uid : String) (now : ℤ) :
    ((can_user_spin s uid now).2 = true ↔
      (recentOnly ((lookup? s.spin_attempts uid).getD []) now).length < 3) ∧
    ((∀ a ∈ (lookup? s.spin_attempts uid).getD [], now - fiveMinutes < a.timestamp) →
      ((lookup? s.spin_attempts uid).getD []).length = 3 →
      (can_user_spin s uid now).2 = false) ∧
    ((∀ a ∈ (lookup? s.spin_attempts uid).getD [], a.timestamp + fiveMinutes ≤ now) →
      (can_user_spin s uid now).2 = true ∧ (get_user_spin_attempts s uid now).2 = []) ∧
    (∀ l, lookup? s.spin_attempts uid = some l →
      lookup? (get_user_spin_attempts s uid now).1.spin_attempts uid =
        some (recentOnly l now)) := by
  cases hl : lookup? s.spin_attempts uid with
  | none =>
    refine ⟨?_, ?_, ?_, ?_⟩
    · simp [can_user_spin, get_user_spin_attempts, hl, recentOnly]
    · intro _ hlen
      simp at hlen
    · intro _
      constructor <;> simp [can_user_spin, get_user_spin_attempts, hl]
    · intro l hll
      exact absurd hll (by simp)
  | some l =>
    have hcan : (can_user_spin s uid now).2 = decide ((recentOnly l now).length < 3) := by
      simp [can_user_spin, get_user_spin_attempts, hl]
    have hres : (get_user_spin_attempts s uid now).2 = recentOnly l now := by
      simp [get_user_spin_attempts, hl]
    refine ⟨?_, ?_, ?_, ?_⟩
    · rw [hcan]
      simp
    · intro hall hlen
      simp only [Option.getD_some] at hall hlen
      have hfull : recentOnly l now = l :=
        List.filter_eq_self.mpr (fun a ha => by simp [hall a ha])
      rw [hcan, hfull, hlen]
      decide
    · intro hall
      simp only [Option.getD_some] at hall
      have hempty : recentOnly l now = [] := by
        refine List.filter_eq_nil_iff.mpr (fun a ha => ?_)
        have h2 := hall a ha
        simp only [decide_eq_true_eq]
        omega
      refine ⟨by rw [hcan, hempty]; decide, by rw [hres, hempty]⟩
    · intro l0 hll
      have hll0 : l = l0 := by injection hll
      subst hll0
      unfold get_user_spin_attempts
      rw [hl]
      by_cases hlen : (recentOnly l now).length ≠ l.length
      · simp only [if_pos hlen]
        show lookup? ((uid, recentOnly l now) :: _) uid = _
        simp [lookup?]
      · simp only [if_neg hlen]
        push_neg at hlen
        have heq : recentOnly l now = l := (List.filter_sublist l).eq_of_length hlen
        show lookup? s.spin_attempts uid = _
        rw [hl, heq]

/-- Three winning spin attempts of `u1` at times 100, 110, 120. -/
def attemptsC8 : List SpinAttempt :=
  [⟨"u1", 1, 5, 100⟩, ⟨"u1", 2, 0, 110⟩, ⟨"u1", 3, 10, 120⟩]

/-- Store with three recorded attempts for `u1`. -/
def stateC8 : State := { emptyState with spin_attempts := [("u1", attemptsC8)] }

/-- C8 witness: at time 150 all three attempts are in-window, so the fourth
spin is refused; at time 430 (5 minutes past the last attempt) the user can
spin again, the window count is 0, and the store is lazily emptied. -/
theorem spin_window_spec_witness :
    (can_user_spin stateC8 "u1" 150).2 = false ∧
    (can_user_spin stateC8 "u1" 430).2 = true ∧
    (get_user_spin_attempts stateC8 "u1" 430).2 = [] ∧
    lookup? (get_user_spin_attempts stateC8 "u1" 430).1.spin_attempts "u1" = some [] := by
  have h1 := (spin_window_spec stateC8 "u1" 150).2.1 (by decide) (by decide)
  have h2 := (spin_window_spec stateC8 "u1" 430).2.2.1 (by decide)
  have h3 := (spin_window_spec stateC8 "u1" 430).2.2.2 attemptsC8 (by decide)
  refine ⟨h1, h2.1, h2.2, ?_⟩
  rw [h3]
  decide

/-! ## Helper lemmas for the spin-wheel handler -/

theorem recentOnly_idem (l : List SpinAttempt) (now : ℤ) :
    recentOnly (recentOnly l now) now = recentOnly l now := by
  simp [recentOnly, List.filter_filter]

/-- A second in-window read right after a first one returns the same list
and leaves the store as it was. -/
theorem get_user_spin_attempts_stable (s : State) (uid : String) (now : ℤ) :
    get_user_spin_attempts (get_user_spin_attempts s uid now).1 uid now =
      ((get_user_spin_attempts s uid now).1, (get_user_spin_attempts s uid now).2) := by
  cases hl : lookup? s.spin_attempts uid with
  | none =>
    have h1 : get_user_spin_attempts s uid now = (s, []) := by
      unfold get_user_spin_attempts
      rw [hl]
    rw [h1]
    exact h1
  | some l =>
    by_cases hlen : (recentOnly l now).length ≠ l.length
    · have h1 : (get_user_spin_attempts s uid now) =
          ({ s with spin_attempts := (uid, recentOnly l now) :: s.spin_attempts },
            recentOnly l now) := by
        unfold get_user_spin_attempts
        rw [hl]
        simp only [if_pos hlen]
      rw [h1]
      unfold get_user_spin_attempts
      show (match lookup? ((uid, recentOnly l now) :: s.spin_attempts) uid with
        | none => _
        | some attempts => _) = _
      rw [show lookup? ((uid, recentOnly l now) :: s.spin_attempts) uid =
        some (recentOnly l now) by simp [lookup?]]
      simp [recentOnly_idem]
    · have h1 : (get_user_spin_attempts s uid now) = (s, recentOnly l now) := by
        unfold get_user_spin_attempts
        rw [hl]
        simp only [if_neg hlen]
      rw [h1]
      rw [h1]

theorem get_user_spin_attempts_codes (s : State) (uid : String) (now : ℤ) :
    (get_user_spin_attempts s uid now).1.discount_codes = s.discount_codes := by
  unfold get_user_spin_attempts
  cases lookup? s.spin_attempts uid with
  | none => rfl
  | some l =>
    dsimp only
    split <;> rfl

theorem record_spin_attempt_codes (s : State) (uid : String) (n : ℕ) (rq : ℚ) (now : ℤ) :
    (record_spin_attempt s uid n rq now).1.discount_codes = s.discount_codes := rfl

/-- C7 counterexample: `create_discount_code` itself validates nothing — a
direct call with percentage 7 (outside the allowed set) succeeds and stores
a code with percentage 7. -/
theorem create_discount_code_unvalidated :
    (create_discount_code emptyState 7 "u1" "ABCDEF" 0).2.discount_percentage = 7 ∧
    lookup? (create_discount_code emptyState 7 "u1" "ABCDEF" 0).1.discount_codes "ABCDEF" =
      some ⟨"ABCDEF", 7, "u1", false, some sevenDays⟩ ∧
    (7 : ℚ) ∉ allowed_percentages := by
  refine ⟨by decide, by decide, by decide⟩

/-- C7 amended: the percentage whitelist is enforced only by the spin-wheel
handler, upstream of `create_discount_code`: a result outside
{5,10,15,20,25,30,50} never creates a code (the store is untouched and the
outcome is not a win), and any code present after the handler ran either was
already there or carries a whitelisted percentage. -/
theorem spin_wheel_pct_whitelist (s : State) (uid : String) (exp : ℚ) (now : ℤ)
    (fresh : String) :
    (exp ∉ allowed_percentages →
      (spin_wheel_result s uid exp now fresh).1.discount_codes = s.discount_codes ∧
      ∀ c pct n, (spin_wheel_result s uid exp now fresh).2 ≠ .won c pct n) ∧
    (∀ k d, lookup? (spin_wheel_result s uid exp now fresh).1.discount_codes k = some d →
      lookup? s.discount_codes k = some d ∨ d.discount_percentage ∈ allowed_percentages) := by
  have hc : (can_user_spin s uid now).1.discount_codes = s.discount_codes := by
    unfold can_user_spin
    exact get_user_spin_attempts_codes s uid now
  have hn : (get_next_spin_number (can_user_spin s uid now).1 uid now).1.discount_codes =
      s.discount_codes := by
    unfold get_next_spin_number
    rw [get_user_spin_attempts_codes]
    exact hc
  by_cases hcan : (can_user_spin s uid now).2 = true
  · have hred : spin_wheel_result s uid exp now fresh =
        (if exp = 0 then
          ((record_spin_attempt (get_next_spin_number (can_user_spin s uid now).1 uid now).1
              uid (get_next_spin_number (can_user_spin s uid now).1 uid now).2 exp now).1,
            .noWin (get_next_spin_number (can_user_spin s uid now).1 uid now).2)
        else if exp ∉ allowed_percentages then
          ((record_spin_attempt (get_next_spin_number (can_user_spin s uid now).1 uid now).1
              uid (get_next_spin_number (can_user_spin s uid now).1 uid now).2 exp now).1,
            .invalidPct exp)
        else
          ((create_discount_code
              (record_spin_attempt (get_next_spin_number (can_user_spin s uid now).1 uid now).1
                uid (get_next_spin_number (can_user_spin s uid now).1 uid now).2 exp now).1
              exp uid fresh now).1,
            .won fresh exp (get_next_spin_number (can_user_spin s uid now).1 uid now).2)) := by
      unfold spin_wheel_result
      rw [if_neg (by simp [hcan])]
    constructor
    · intro hout
      by_cases h0 : exp = 0
      · rw [hred, if_pos h0]
        exact ⟨by rw [record_spin_attempt_codes]; exact hn, by intro c pct n hcon; cases hcon⟩
      · rw [hred, if_neg h0, if_pos hout]
        exact ⟨by rw [record_spin_attempt_codes]; exact hn, by intro c pct n hcon; cases hcon⟩
    · intro k d hk
      by_cases h0 : exp = 0
      · rw [hred, if_pos h0] at hk
        rw [record_spin_attempt_codes, hn] at hk
        exact Or.inl hk
      · by_cases hmem : exp ∉ allowed_percentages
        · rw [hred, if_neg h0, if_pos hmem] at hk
          rw [record_spin_attempt_codes, hn] at hk
          exact Or.inl hk
        · rw [hred, if_neg h0, if_neg hmem] at hk
          unfold create_discount_code at hk
          rw [show ((record_spin_attempt
              (get_next_spin_number (can_user_spin s uid now).1 uid now).1 uid
              (get_next_spin_number (can_user_spin s uid now).1 uid now).2 exp
              now).1).discount_codes = s.discount_codes from by
            rw [record_spin_attempt_codes]; exact hn] at hk
          show lookup? s.discount_codes k = some d ∨ _
          by_cases hfk : fresh = k
          · right
            rw [show lookup? ((fresh, _) :: s.discount_codes) k = _ from rfl] at hk
            simp only [lookup?, if_pos hfk] at hk
            have hd : d.discount_percentage = exp := by
              cases hk
              rfl
            rw [hd]
            exact not_not.mp hmem
          · left
            simp only [lookup?, if_neg hfk] at hk
            exact hk
  · have hred : spin_wheel_result s uid exp now fresh =
        ((can_user_spin s uid now).1, .limitReached) := by
      unfold spin_wheel_result
      rw [if_pos (by simp [hcan])]
    constructor
    · intro _
      rw [hred]
      exact ⟨hc, by intro c pct n hcon; cases hcon⟩
    · intro k d hk
      rw [hred] at hk
      rw [hc] at hk
      exact Or.inl hk

/-- C7 witness: a client-reported 7% spin leaves the discount store alone
and wins nothing, while a legitimate 20% spin stores a 20% code. -/
theorem spin_wheel_pct_whitelist_witness :
    (spin_wheel_result emptyState "u1" 7 0 "FRESHA").1.discount_codes =
      emptyState.discount_codes ∧
    (∀ c pct n, (spin_wheel_result emptyState "u1" 7 0 "FRESHA").2 ≠ .won c pct n) ∧
    (lookup? (spin_wheel_result emptyState "u1" 20 0 "FRESHA").1.discount_codes
        "FRESHA").map DiscountCode.discount_percentage = some 20 := by
  have h1 := (spin_wheel_pct_whitelist emptyState "u1" 7 0 "FRESHA").1 (by decide)
  exact ⟨h1.1, h1.2, by decide⟩

/-- C9 counterexample: the handler records whatever number the client posts
— here 7, which is outside `determine_spin_result`'s outcome set — and it
records it before the whitelist check rejects the spin. -/
theorem spin_records_invalid_counterexample :
    lookup? (spin_wheel_result emptyState "u1" 7 0 "FRESH1").1.spin_attempts "u1" =
      some [⟨"u1", 1, 7, 0⟩] ∧
    (7 : ℚ) ∉ possible_results ∧
    (spin_wheel_result emptyState "u1" 7 0 "FRESH1").2 = .invalidPct 7 := by
  refine ⟨by decide, by decide, by decide⟩

/-- C9 amended: when the user may spin, the recorded attempt's result equals
the client-supplied `expected_discount` (whatever its value — the handler
never calls `determine_spin_result`), its spin number is the in-window
attempt count plus one, and `determine_spin_result` itself only ever yields
members of {0,5,10,15,20,25,30}. -/
theorem spin_records_client_result (s : State) (uid : String) (exp : ℚ) (now : ℤ)
    (fresh : String) (h : (can_user_spin s uid now).2 = true) :
    (∃ l, lookup? (spin_wheel_result s uid exp now fresh).1.spin_attempts uid =
      some (l ++ [⟨uid, (get_user_spin_attempts s uid now).2.length + 1, exp, now⟩])) ∧
    (∀ i, determine_spin_result i ∈ possible_results) := by
  constructor
  · have hstable := get_user_spin_attempts_stable s uid now
    have hc1 : (can_user_spin s uid now).1 = (get_user_spin_attempts s uid now).1 := rfl
    have hn : get_next_spin_number (can_user_spin s uid now).1 uid now =
        ((get_user_spin_attempts s uid now).1,
          (get_user_spin_attempts s uid now).2.length + 1) := by
      unfold get_next_spin_number
      rw [hc1, hstable]
    have hrec : ∀ st : State, ∀ n : ℕ,
        lookup? (record_spin_attempt st uid n exp now).1.spin_attempts uid =
          some ((lookup? st.spin_attempts uid).getD [] ++ [⟨uid, n, exp, now⟩]) := by
      intro st n
      unfold record_spin_attempt
      simp [lookup?]
    refine ⟨(lookup? (get_user_spin_attempts s uid now).1.spin_attempts uid).getD [], ?_⟩
    have hred : (spin_wheel_result s uid exp now fresh).1.spin_attempts =
        (record_spin_attempt (get_next_spin_number (can_user_spin s uid now).1 uid now).1
          uid (get_next_spin_number (can_user_spin s uid now).1 uid now).2 exp
          now).1.spin_attempts := by
      unfold spin_wheel_result
      rw [if_neg (by simp [h])]
      by_cases h0 : exp = 0
      · rw [if_pos h0, h0]
      · rw [if_neg h0]
        by_cases hmem : exp ∉ allowed_percentages
        · rw [if_pos hmem]
        · rw [if_neg hmem]
          rfl
    rw [hred, hrec, hn]
  · intro i
    unfold determine_spin_result
    have h7 : i % possible_results.length = 0 ∨ i % possible_results.length = 1 ∨
        i % possible_results.length = 2 ∨ i % possible_results.length = 3 ∨
        i % possible_results.length = 4 ∨ i % possible_results.length = 5 ∨
        i % possible_results.length = 6 := by
      have hlen : possible_results.length = 7 := rfl
      rw [hlen]
      omega
    rcases h7 with h | h | h | h | h | h | h <;> rw [h] <;> decide

/-- C9 witness: a permitted spin with client value 15 is recorded with
result 15 and spin number `count + 1`. -/
theorem spin_records_client_result_witness :
    (∃ l, lookup? (spin_wheel_result stateC8 "u1" 15 430 "FRESHB").1.spin_attempts "u1" =
      some (l ++ [⟨"u1", (get_user_spin_attempts stateC8 "u1" 430).2.length + 1, 15, 430⟩])) ∧
    (∀ i, determine_spin_result i ∈ possible_results) :=
  spin_records_client_result stateC8 "u1" 15 430 "FRESHB" (by decide)

/-! ## C4: stock non-negativity -/

/-- A store with exactly one entry pins down both the key and the value of a
successful lookup. -/
theorem lookup_singleton_cases {β : Type} (k : String) (v : β) (pid : String) (r : β)
    (h : lookup? [(k, v)] pid = some r) : k = pid ∧ r = v := by
  unfold lookup? at h
  by_cases hk : k = pid
  · rw [if_pos hk] at h
    refine ⟨hk, ?_⟩
    injection h with h2
    exact h2.symm
  · rw [if_neg hk] at h
    exact absurd h (by simp [lookup?])

/-- C4 amended: each core operation keeps every product's stock
non-negative, with one proviso for checkout — the cart quantities must not
exceed the current stock at that moment.  Checkout itself never re-checks
stock (and does not clear the cart), so without the proviso stock can go
negative, as the counterexample shows. -/
theorem stock_nonneg_preservation (s : State)
    (h : ∀ pid p, lookup? s.products pid = some p → 0 ≤ p.stock) :
    (∀ uid pid qty pid2 p2,
      lookup? (add_to_cart s uid pid qty).1.products pid2 = some p2 → 0 ≤ p2.stock) ∧
    (∀ oid ns uid pid p,
      lookup? (perform_status_update s oid ns uid).1.products pid = some p → 0 ≤ p.stock) ∧
    (∀ oid pid p,
      lookup? (admin_delete_order s oid).1.products pid = some p → 0 ≤ p.stock) ∧
    (∀ uid form oid now,
      (∀ pid p, lookup? s.products pid = some p →
        (cartQtyFor (get_cart_items s uid) pid : ℤ) ≤ p.stock) →
      ∀ pid p, lookup? (checkout s uid form oid now).1.products pid = some p →
        0 ≤ p.stock) := by
  refine ⟨?_, ?_, ?_, ?_⟩
  · intro uid pid qty pid2 p2 hp
    rw [add_to_cart_products] at hp
    exact h pid2 p2 hp
  · intro oid ns uid pid p hp
    rw [perform_status_update_products] at hp
    exact h pid p hp
  · intro oid pid p hp
    rw [admin_delete_order_products] at hp
    exact h pid p hp
  · intro uid form oid now hq pid p hp
    by_cases hcart : (get_cart_items s uid).isEmpty = true
    · have hid : (checkout s uid form oid now).1 = s := by
        unfold checkout
        rw [if_pos hcart]
      rw [hid] at hp
      exact h pid p hp
    · obtain ⟨dc, pct, amt, totalF, h2, hprod⟩ := checkout_unfold s uid form oid now hcart
      rw [hprod, lookup_decrementStock] at hp
      cases hl : lookup? s.products pid with
      | none =>
        rw [hl] at hp
        cases hp
      | some p0 =>
        rw [hl] at hp
        simp only [Option.map_some', Option.some.injEq] at hp
        have hqty : itemsQtyFor (cartLines s.products (get_cart_items s uid)) pid =
            cartQtyFor (get_cart_items s uid) pid :=
          itemsQtyFor_cartLines _ _ _ (by rw [hl]; rfl)
        have hle := hq pid p0 hl
        rw [← hp]
        show 0 ≤ p0.stock - _
        rw [hqty]
        omega

/-- C4 witness: the preserved sequence — on `stateC2` the single checkout of
2 units against stock 5 keeps the stock at 3, non-negative. -/
theorem stock_nonneg_preservation_witness :
    (0 : ℤ) ≤ Product.stock { prodC2 with stock := 3 } := by
  have hinit : ∀ pid p, lookup? stateC2.products pid = some p → 0 ≤ p.stock := by
    intro pid p hp
    obtain ⟨hk, hv⟩ := lookup_singleton_cases "p1" prodC2 pid p hp
    rw [hv]
    decide
  have hq : ∀ pid p, lookup? stateC2.products pid = some p →
      (cartQtyFor (get_cart_items stateC2 "u1") pid : ℤ) ≤ p.stock := by
    intro pid p hp
    obtain ⟨hk, hv⟩ := lookup_singleton_cases "p1" prodC2 pid p hp
    rw [← hk, hv]
    decide
  exact (stock_nonneg_preservation stateC2 hinit).2.2.2 "u1" noDiscountForm "o1" 0 hq "p1"
    { prodC2 with stock := 3 } (by decide)

/-- A product with stock 2. -/
def prodC4 : Product :=
  { price := 10, vendor_id := "v1", is_active := true, stock := 2, is_promotional := false,
    promotional_price := none, promotional_end_date := none }

/-- Store with customer `u1` and product `p1` at stock 2. -/
def stateC4 : State :=
  { emptyState with
      users := [("u1", ⟨"customer"⟩)]
      products := [("p1", prodC4)] }

/-- The state after adding 2 units to the cart and checking out twice: the
cart is not cleared at checkout, so the second checkout decrements again. -/
def stateC4final : State :=
  (checkout (checkout (add_to_cart stateC4 "u1" "p1" 2).1 "u1" noDiscountForm "oA" 0).1
    "u1" noDiscountForm "oB" 0).1

/-- C4 counterexample: starting from non-negative stock, the accepted
sequence add-to-cart (2 of stock 2), checkout, checkout leaves product `p1`
at stock −2. -/
theorem stock_goes_negative :
    (∀ pid p, lookup? stateC4.products pid = some p → 0 ≤ p.stock) ∧
    (add_to_cart stateC4 "u1" "p1" 2).2 = true ∧
    (lookup? stateC4final.products "p1").map Product.stock = some (-2) ∧
    ¬ (∀ pid p, lookup? stateC4final.products pid = some p → 0 ≤ p.stock) := by
  refine ⟨?_, by decide, by decide, ?_⟩
  · intro pid p hp
    obtain ⟨hk, hv⟩ := lookup_singleton_cases "p1" prodC4 pid p hp
    rw [hv]
    decide
  · intro hcon
    have h1 : (lookup? stateC4final.products "p1").map Product.stock = some (-2) := by decide
    cases hl : lookup? stateC4final.products "p1" with
    | none =>
      rw [hl] at h1
      cases h1
    | some p =>
      have h2 := hcon "p1" p hl
      rw [hl] at h1
      simp only [Option.map_some', Option.some.injEq] at h1
      rw [h1] at h2
      exact absurd h2 (by decide)

/-! ## C5: single-use discount codes over operation traces -/

/-- The operations the single-use claim ranges over: checkout requests and
direct `use_discount_code` calls. -/
inductive TraceOp where
  | checkoutOp (uid : String) (form : CheckoutForm) (oid : String) (now : ℤ)
  | useCodeOp (code uid : String)

/-- State transition of one trace operation. -/
def stepOp (s : State) (op : TraceOp) : State :=
  match op with
  | .checkoutOp uid form oid now => (checkout s uid form oid now).1
  | .useCodeOp code uid => (use_discount_code s code uid).1

/-- Whether a validation outcome is a success. -/
def isOkResult : ValidateResult → Bool
  | .ok _ => true
  | _ => false

/-- The operation consumes code `c` (canonical, upper-case key) through the
server-validated checkout branch: nonempty cart, no client-applied fields,
a discount code present and successfully validated. -/
def validatedApply (s : State) (op : TraceOp) (c : String) : Bool :=
  match op with
  | .checkoutOp uid form _ now =>
    !(get_cart_items s uid).isEmpty && (form.applied_discount_code == "") &&
      (form.discount_code != "") &&
      isOkResult (validate_discount_code s form.discount_code uid now) &&
      (strUpper form.discount_code == c)
  | .useCodeOp _ _ => false

/-- Number of server-validated applications of code `c` along a trace. -/
def countValidated : State → List TraceOp → String → ℕ
  | _, [], _ => 0
  | s, op :: rest, c =>
    (if validatedApply s op c then 1 else 0) + countValidated (stepOp s op) rest c

/-- Code `c` is burnt: missing from the store or flagged used. -/
def usedOrAbsent (s : State) (c : String) : Prop :=
  ∀ d, lookup? s.discount_codes c = some d → d.is_used = true

theorem isOkResult_elim {v : ValidateResult} (h : isOkResult v = true) : ∃ d, v = .ok d := by
  cases v with
  | ok d => exact ⟨d, rfl⟩
  | notFound => cases h
  | alreadyUsed => cases h
  | wrongOwner => cases h
  | expired => cases h

/-- A successful validation pins the looked-up record, its fresh used flag
and its owner. -/
theorem validate_ok_elim (s : State) (code uid : String) (now : ℤ) (d : DiscountCode)
    (h : validate_discount_code s code uid now = .ok d) :
    get_discount_code s code = some d ∧ d.is_used = false ∧ d.user_id = uid := by
  unfold validate_discount_code at h
  cases hg : get_discount_code s code with
  | none =>
    rw [hg] at h
    cases h
  | some d0 =>
    rw [hg] at h
    dsimp only at h
    by_cases h1 : d0.is_used = true
    · rw [if_pos h1] at h
      cases h
    · rw [if_neg h1] at h
      by_cases h2 : d0.user_id ≠ uid
      · rw [if_pos h2] at h
        cases h
      · rw [if_neg h2] at h
        by_cases h3 : pastExpiry d0.expires_at now = true
        · rw [if_pos h3] at h
          cases h
        · rw [if_neg h3] at h
          injection h with h4
          subst h4
          exact ⟨rfl, by simpa using h1, not_not.mp h2⟩

/-- What `use_discount_code` can do to any single store key: leave it alone
or set its used flag. -/
theorem use_discount_code_lookup (s : State) (code uid k : String) :
    lookup? (use_discount_code s code uid).1.discount_codes k =
      lookup? s.discount_codes k ∨
    ∃ d0, lookup? s.discount_codes k = some d0 ∧
      lookup? (use_discount_code s code uid).1.discount_codes k =
        some { d0 with is_used := true } := by
  cases hg : get_discount_code s code with
  | none =>
    have hid : (use_discount_code s code uid).1 = s := by
      unfold use_discount_code
      rw [hg]
    rw [hid]
    exact Or.inl rfl
  | some d =>
    by_cases ho : d.user_id = uid
    · have hupd : (use_discount_code s code uid).1.discount_codes =
          updateKey s.discount_codes (strUpper code)
            (fun c0 => { c0 with is_used := true }) := by
        unfold use_discount_code
        rw [hg]
        dsimp only
        rw [if_pos ho]
      by_cases hk : strUpper code = k
      · subst hk
        rw [hupd, lookup_updateKey_self]
        cases hl : lookup? s.discount_codes (strUpper code) with
        | none => exact Or.inl rfl
        | some d0 => exact Or.inr ⟨d0, rfl, rfl⟩
      · rw [hupd, lookup_updateKey_other _ _ _ _ hk]
        exact Or.inl rfl
    · have hid : (use_discount_code s code uid).1 = s := by
        unfold use_discount_code
        rw [hg]
        dsimp only
        rw [if_neg ho]
      rw [hid]
      exact Or.inl rfl

theorem usedOrAbsent_use (s : State) (code uid c : String) (h : usedOrAbsent s c) :
    usedOrAbsent (use_discount_code s code uid).1 c := by
  intro d hd
  rcases use_discount_code_lookup s code uid c with heq | ⟨d0, hd0, hset⟩
  · exact h d (heq ▸ hd)
  · rw [hset] at hd
    injection hd with h2
    rw [← h2]

/-- The discount store after a checkout is the store of `s` or the store
after one `use_discount_code` call. -/
theorem checkout_codes (s : State) (uid : String) (form : CheckoutForm) (oid : String)
    (now : ℤ) :
    (checkout s uid form oid now).1.discount_codes = s.discount_codes ∨
    ∃ code, (checkout s uid form oid now).1.discount_codes =
      (use_discount_code s code uid).1.discount_codes := by
  unfold checkout
  by_cases hcart : (get_cart_items s uid).isEmpty = true
  · rw [if_pos hcart]
    exact Or.inl rfl
  · rw [if_neg hcart]
    dsimp only
    by_cases h1 : form.applied_discount_code ≠ ""
    · rw [if_pos h1]
      exact Or.inr ⟨form.applied_discount_code, rfl⟩
    · rw [if_neg h1]
      by_cases h2 : form.discount_code ≠ ""
      · rw [if_pos h2]
        cases hv : validate_discount_code s form.discount_code uid now with
        | ok d => exact Or.inr ⟨form.discount_code, rfl⟩
        | notFound => exact Or.inl rfl
        | alreadyUsed => exact Or.inl rfl
        | wrongOwner => exact Or.inl rfl
        | expired => exact Or.inl rfl
      · rw [if_neg h2]
        exact Or.inl rfl

theorem usedOrAbsent_step (s : State) (op : TraceOp) (c : String) (h : usedOrAbsent s c) :
    usedOrAbsent (stepOp s op) c := by
  cases op with
  | useCodeOp code uid => exact usedOrAbsent_use s code uid c h
  | checkoutOp uid form oid now =>
    intro d hd
    rcases checkout_codes s uid form oid now with heq | ⟨code, heq⟩
    · exact h d (by rw [← heq]; exact hd)
    · exact usedOrAbsent_use s code uid c h d (by rw [← heq]; exact hd)

/-- A burnt code never validates, so no operation can apply it. -/
theorem validatedApply_false_of_used (s : State) (op : TraceOp) (c : String)
    (h : usedOrAbsent s c) : validatedApply s op c = false := by
  cases op with
  | useCodeOp code uid => rfl
  | checkoutOp uid form oid now =>
    by_contra hcon
    rw [Bool.not_eq_false] at hcon
    unfold validatedApply at hcon
    simp only [Bool.and_eq_true, beq_iff_eq, bne_iff_ne] at hcon
    obtain ⟨⟨⟨⟨-, -⟩, -⟩, hok⟩, hcode⟩ := hcon
    obtain ⟨d, hval⟩ := isOkResult_elim hok
    obtain ⟨hget, hunused, -⟩ := validate_ok_elim _ _ _ _ _ hval
    unfold get_discount_code at hget
    rw [hcode] at hget
    have := h d hget
    rw [this] at hunused
    cases hunused

theorem countValidated_zero (ops : List TraceOp) (s : State) (c : String)
    (h : usedOrAbsent s c) : countValidated s ops c = 0 := by
  induction ops generalizing s with
  | nil => rfl
  | cons op rest ih =>
    show (if validatedApply s op c then 1 else 0) + countValidated (stepOp s op) rest c = 0
    rw [if_neg (by rw [validatedApply_false_of_used s op c h]; exact Bool.false_ne_true)]
    rw [ih (stepOp s op) (usedOrAbsent_step s op c h)]

/-- Applying a code through the validated checkout branch burns it. -/
theorem apply_marks_used (s : State) (uid : String) (form : CheckoutForm) (oid : String)
    (now : ℤ) (c : String)
    (h : validatedApply s (.checkoutOp uid form oid now) c = true) :
    usedOrAbsent (stepOp s (.checkoutOp uid form oid now)) c := by
  unfold validatedApply at h
  simp only [Bool.and_eq_true, beq_iff_eq, bne_iff_ne, Bool.not_eq_true', List.isEmpty_eq_false]
    at h
  obtain ⟨⟨⟨⟨hcart, happl⟩, hdc⟩, hok⟩, hcode⟩ := h
  obtain ⟨d, hval⟩ := isOkResult_elim hok
  obtain ⟨hget, hunused, howner⟩ := validate_ok_elim _ _ _ _ _ hval
  have hcart2 : ¬ (get_cart_items s uid).isEmpty = true := by simp [hcart]
  have happl2 : ¬ form.applied_discount_code ≠ "" := by simp [happl]
  have hstep : (stepOp s (.checkoutOp uid form oid now)).discount_codes =
      (use_discount_code s form.discount_code uid).1.discount_codes := by
    show (checkout s uid form oid now).1.discount_codes = _
    unfold checkout
    rw [if_neg hcart2]
    dsimp only
    rw [if_neg happl2, if_pos hdc, hval]
    rfl
  intro d0 hd0
  rw [hstep] at hd0
  have huse : lookup? (use_discount_code s form.discount_code uid).1.discount_codes c =
      some { d with is_used := true } := by
    unfold use_discount_code
    rw [hget]
    dsimp only
    rw [if_pos howner]
    show lookup? (updateKey _ _ _) _ = _
    rw [← hcode, lookup_updateKey_self]
    unfold get_discount_code at hget
    rw [hget]
    rfl
  rw [huse] at hd0
  injection hd0 with h2
  rw [← h2]

/-- C5 amended.  Over every sequence of checkout and `use_discount_code`
operations, a given code is consumed through the server-validated checkout
branch at most once, and whenever that branch consumes it the code exists
unused in the store, belongs to the requesting customer, and the created
order belongs to that same customer.  (The client-form branch bypasses all
of this — see the counterexample.) -/
theorem discount_applied_once (s : State) (ops : List TraceOp) (c : String) :
    countValidated s ops c ≤ 1 ∧
    (∀ uid form oid now, validatedApply s (.checkoutOp uid form oid now) c = true →
      ∃ d, lookup? s.discount_codes c = some d ∧ d.user_id = uid ∧ d.is_used = false ∧
        ∃ o, (checkout s uid form oid now).2 = some o ∧ o.customer_id = uid) := by
  constructor
  · induction ops generalizing s with
    | nil => exact Nat.zero_le 1
    | cons op rest ih =>
      show (if validatedApply s op c then 1 else 0) + countValidated (stepOp s op) rest c ≤ 1
      by_cases happ : validatedApply s op c = true
      · rw [if_pos happ]
        have hz : countValidated (stepOp s op) rest c = 0 := by
          apply countValidated_zero
          cases op with
          | checkoutOp uid form oid now => exact apply_marks_used s uid form oid now c happ
          | useCodeOp code uid => cases happ
        omega
      · rw [if_neg happ]
        simpa using ih (stepOp s op)
  · intro uid form oid now happ
    have hraw := happ
    unfold validatedApply at happ
    simp only [Bool.and_eq_true, beq_iff_eq, bne_iff_ne, Bool.not_eq_true',
      List.isEmpty_eq_false] at happ
    obtain ⟨⟨⟨⟨hcart, happl⟩, hdc⟩, hok⟩, hcode⟩ := happ
    obtain ⟨d, hval⟩ := isOkResult_elim hok
    obtain ⟨hget, hunused, howner⟩ := validate_ok_elim _ _ _ _ _ hval
    have hcart2 : ¬ (get_cart_items s uid).isEmpty = true := by simp [hcart]
    refine ⟨d, ?_, howner, hunused, ?_⟩
    · unfold get_discount_code at hget
      rw [← hcode]
      exact hget
    · obtain ⟨dc, pct, amt, totalF, h2, -⟩ := checkout_unfold s uid form oid now hcart2
      exact ⟨_, h2, rfl⟩

/-- A fresh 10%-code of `u1` (key CODEZZ). -/
def codeC5 : DiscountCode := ⟨"CODEZZ", 10, "u1", false, some 1000⟩

/-- Store where `u1` has one cart line and owns the fresh code CODEZZ. -/
def stateC5 : State :=
  { emptyState with
      users := [("u1", ⟨"customer"⟩)]
      products := [("p1", prodC2)]
      cart_items := [(("u1", "p1"), ⟨"u1", "p1", 1⟩)]
      discount_codes := [("CODEZZ", codeC5)] }

/-- Checkout form naming CODEZZ for server-side validation. -/
def formC5 : CheckoutForm :=
  { discount_code := "CODEZZ", applied_discount_code := "", applied_discount_percentage := 0,
    applied_discount_amount := 0, final_total_amount := none }

/-- C5 witness: two identical validated checkouts apply CODEZZ at most once,
and the first application hits an unused code of the ordering customer. -/
theorem discount_applied_once_witness :
    countValidated stateC5
      [.checkoutOp "u1" formC5 "o1" 0, .checkoutOp "u1" formC5 "o2" 0] "CODEZZ" ≤ 1 ∧
    (∃ d, lookup? stateC5.discount_codes "CODEZZ" = some d ∧ d.user_id = "u1" ∧
      d.is_used = false ∧ ∃ o, (checkout stateC5 "u1" formC5 "o1" 0).2 = some o ∧
        o.customer_id = "u1") := by
  have h := discount_applied_once stateC5
    [.checkoutOp "u1" formC5 "o1" 0, .checkoutOp "u1" formC5 "o2" 0] "CODEZZ"
  exact ⟨h.1, h.2 "u1" formC5 "o1" 0 (by decide)⟩

/-- A discount code of `u2` that is already used (and expired). -/
def codeC5x : DiscountCode := ⟨"CODEQQ", 10, "u2", true, some 10⟩

/-- Store where customer `u1` has a cart line and `u2` owns the burnt code
CODEQQ. -/
def stateC5x : State :=
  { emptyState with
      users := [("u1", ⟨"customer"⟩)]
      products := [("p1", prodC2)]
      cart_items := [(("u1", "p1"), ⟨"u1", "p1", 1⟩)]
      discount_codes := [("CODEQQ", codeC5x)] }

/-- A checkout form carrying client-side applied-discount fields naming
CODEQQ with a reduced total. -/
def formC5x : CheckoutForm :=
  { discount_code := "", applied_discount_code := "CODEQQ", applied_discount_percentage := 10,
    applied_discount_amount := 1, final_total_amount := some 9 }

/-- C5 counterexample: through the client-form branch, customer `u1` gets an
order whose total is adjusted by code CODEQQ although the code belongs to
`u2` and is already used — the claim's ownership and single-use guarantees
fail as stated. -/
theorem discount_misapplied_counterexample :
    codeC5x.user_id = "u2" ∧ codeC5x.is_used = true ∧
    lookup? stateC5x.discount_codes "CODEQQ" = some codeC5x ∧
    ∃ o, (checkout stateC5x "u1" formC5x "o9" 100).2 = some o ∧
      o.customer_id = "u1" ∧ o.discount_code = some "CODEQQ" ∧
      o.discount_percentage = 10 ∧ o.total_amount = 9 ∧ o.subtotal = 10 := by
  refine ⟨rfl, rfl, by decide, ?_⟩
  have hne : ¬ (get_cart_items stateC5x "u1").isEmpty = true := by decide
  have happ : formC5x.applied_discount_code ≠ "" := by decide
  have hred : checkout stateC5x "u1" formC5x "o9" 100 =
      (let built := buildOrderItems stateC5x.products (get_cart_items stateC5x "u1")
       let s1 := (use_discount_code stateC5x "CODEQQ" "u1").1
       let next := create_order s1 "u1" built.1 (formC5x.final_total_amount.getD built.2)
         (some "CODEQQ") 10 1 built.2 "o9"
       (next.1, some next.2)) := by
    unfold checkout
    rw [if_neg hne]
    dsimp only
    rw [if_pos happ]
    rfl
  rw [hred]
  refine ⟨_, rfl, rfl, rfl, rfl, rfl, ?_⟩
  show (buildOrderItems stateC5x.products (get_cart_items stateC5x "u1")).2 = 10
  rw [buildOrderItems_eq]
  have hcl : cartLines stateC5x.products (get_cart_items stateC5x "u1") =
      [⟨"p1", 1, 10⟩] := by decide
  show linesTotal (cartLines stateC5x.products (get_cart_items stateC5x "u1")) = 10
  rw [hcl]
  norm_num [linesTotal]

end EStore
